import Mathlib

/-!
Shallow embedding of the asynchronous-evolution core of pagmo
(`include/pagmo/bfe.hpp` and `include/pagmo/island.hpp`): the batch
fitness evaluation drivers (`thread_bfe`, `member_bfe`, `default_bfe`),
the type-erased `bfe` container, the `thread_island` user-defined island
driver and the futures bookkeeping of `island::evolve` / `island::wait`.

Decision/fitness vectors (`vector_double`, flat sequences of doubles) are
modelled as `List Int`: the core only moves, slices and concatenates the
scalar values, it never computes with them, so any scalar carrier is
faithful.  The platform-dependent quantity
`std::numeric_limits<vector_double::size_type>::max()` is kept as an
explicit parameter `sizeMax`.  Side effects (fitness-evaluation counters,
lock handling) are made explicit by state passing and by recording traces
of the observable events the C++ performs.
-/

namespace Pagmo

/-- The `pagmo::thread_safety` enum (`threading.hpp`, external contract):
`none < copyonly < basic < constant`, compared via the underlying
integral value. -/
inductive thread_safety : Type where
  | tsnone : thread_safety
  | copyonly : thread_safety
  | basic : thread_safety
  | tsconstant : thread_safety
deriving DecidableEq, Repr

/-- Underlying integral value of a `thread_safety` tier, as used by
`static_cast<int>` in the C++ comparisons. -/
def thread_safety.toNat : thread_safety → Nat
  | .tsnone => 0
  | .copyonly => 1
  | .basic => 2
  | .tsconstant => 3

/-- Comparison `a >= b` on thread-safety tiers (C++ compares the
underlying enum values). -/
def tsGe (a b : thread_safety) : Bool := decide (b.toNat ≤ a.toNat)

/-- Modelled from the spec: the external `pagmo::problem` contract
(`problem.hpp` is not part of the sources in scope; spec section 3 fixes
the relevant attributes): decision dimension `nx`, fitness dimension
`nf`, a display name, a declared thread-safety tier, the optional
`batch_fitness` member gated by `has_batch_fitness`, the fitness
function, and the `fevals` evaluation counter that `fitness` increments
on success. -/
structure problem : Type where
  nx : Nat
  nf : Nat
  name : String
  ts : thread_safety
  hasBatchFitness : Bool
  fitnessFun : List Int → List Int
  batchFitnessFun : List Int → List Int
  fevals : Nat

def problem.get_nx (p : problem) : Nat := p.nx

def problem.get_nf (p : problem) : Nat := p.nf

def problem.get_name (p : problem) : String := p.name

def problem.get_thread_safety (p : problem) : thread_safety := p.ts

def problem.has_batch_fitness (p : problem) : Bool := p.hasBatchFitness

/-- Modelled from the spec: `problem::increment_fevals(n)` bumps the
fitness-evaluation counter by `n`. -/
def problem.increment_fevals (p : problem) (n : Nat) : problem :=
  { p with fevals := p.fevals + n }

/-- Modelled from the spec: `problem::fitness(dv)` returns the fitness
vector and increments the internal `fevals` counter by one. -/
def problem.fitness (p : problem) (dv : List Int) : List Int × problem :=
  (p.fitnessFun dv, { p with fevals := p.fevals + 1 })

/-- Write the values `v` into `l` starting at offset `off`, leaving the
rest unchanged: the model of `std::copy(fv.begin(), fv.end(), out_ptr)`
into the preallocated output buffer. -/
def writeAt (l : List Int) (off : Nat) (v : List Int) : List Int :=
  l.take off ++ v ++ l.drop (off + v.length)

/-- The `range_evaluator` lambda of `thread_bfe::operator()`: for each
individual index `i` in `[0, k)`, copy the slice
`dvs[i*n_dim, (i+1)*n_dim)` into a scratch vector, evaluate the
problem's fitness on it (threading the problem state, so that the
`fevals` increments performed by `fitness` are visible), and write the
fitness vector into the output buffer at offset `i*f_dim`.  The TBB
blocked ranges partition `[0, k)`; the writes are at disjoint
index-aligned offsets, so evaluating the indices in order is the
faithful sequentialisation. -/
def range_evaluator (n_dim f_dim : Nat) (dvs : List Int) (p : problem)
    (retval : List Int) (k : Nat) : List Int × problem :=
  (List.range k).foldl
    (fun acc i =>
      let tmp_dv := (dvs.drop (i * n_dim)).take n_dim
      let r := acc.2.fitness tmp_dv
      (writeAt acc.1 (i * f_dim) r.1, r.2))
    (retval, p)

/-- Instrumented result of a `thread_bfe` call: the outcome (the fitness
buffer, or the thrown error message), the final state of the original
problem object, how many fitness evaluations ran directly on the
original problem, how many ran on copies of it, and the arguments of the
`increment_fevals` calls made on the original problem. -/
structure tb_result : Type where
  outcome : Except String (List Int)
  prob : problem
  sharedFitnessCalls : Nat
  copyFitnessCalls : Nat
  incrementFevalsArgs : List Nat

/-- The C++ `thread_bfe::operator()(p, dvs)` (`bfe.hpp`): computes
`n_dvs = dvs.size() / n_dim`, guards against `n_dvs * f_dim`
overflowing `vector_double::size_type` (whose maximum is the parameter
`sizeMax`), allocates the output, then dispatches on the problem's
thread-safety tier: at `constant` or higher the original problem is
shared across the parallel evaluations (its counter is bumped by each
`fitness` call); at exactly `basic` the evaluations run on copies of the
problem and afterwards `increment_fevals(n_dvs)` is called once on the
original; below `basic` an invalid-argument error is thrown. -/
def thread_bfe_call (sizeMax : Nat) (p : problem) (dvs : List Int) : tb_result :=
  let n_dim := p.get_nx
  let f_dim := p.get_nf
  let n_dvs := dvs.length / n_dim
  if sizeMax / f_dim < n_dvs then
    { outcome := .error
        "Overflow detected in the computation of the size of the output of a thread_bfe",
      prob := p, sharedFitnessCalls := 0, copyFitnessCalls := 0,
      incrementFevalsArgs := [] }
  else
    let retval : List Int := List.replicate (n_dvs * f_dim) 0
    if tsGe p.get_thread_safety .tsconstant then
      let r := range_evaluator n_dim f_dim dvs p retval n_dvs
      { outcome := .ok r.1, prob := r.2, sharedFitnessCalls := n_dvs,
        copyFitnessCalls := 0, incrementFevalsArgs := [] }
    else if p.get_thread_safety = .basic then
      let r := range_evaluator n_dim f_dim dvs p retval n_dvs
      { outcome := .ok r.1, prob := p.increment_fevals n_dvs,
        sharedFitnessCalls := 0, copyFitnessCalls := n_dvs,
        incrementFevalsArgs := [n_dvs] }
    else
      { outcome := .error
          ("Cannot use a thread_bfe on the problem \x27" ++ p.get_name
            ++ "\x27, which does not provide the required level of thread safety"),
        prob := p, sharedFitnessCalls := 0, copyFitnessCalls := 0,
        incrementFevalsArgs := [] }

/-- Modelled from the spec: `detail::prob_invoke_mem_batch_fitness`
(`detail/bfe_impl.hpp` is not in the sources in scope; spec section 4.D:
`member_bfe` requires `has_batch_fitness` and forwards the call to the
problem's `batch_fitness` member, errors surfacing unchanged). -/
def member_bfe_call (p : problem) (dvs : List Int) : List Int :=
  p.batchFitnessFun dvs

/-- The C++ `detail::default_bfe_cpp_impl` (`bfe.hpp`): the heuristic behind
`default_bfe`.  If the problem has a `batch_fitness` member, delegate to
`member_bfe`; otherwise, if the problem is at least `basic`-thread-safe,
run `thread_bfe`; otherwise throw an invalid-argument error.  The result
also carries the final problem state, mirroring the instrumentation of
`thread_bfe_call`. -/
def default_bfe_cpp_impl (sizeMax : Nat) (p : problem) (dvs : List Int) :
    Except String (List Int) × problem :=
  if p.has_batch_fitness then
    (.ok (member_bfe_call p dvs), p)
  else if tsGe p.get_thread_safety .basic then
    let r := thread_bfe_call sizeMax p dvs
    (r.outcome, r.prob)
  else
    (.error
      ("Cannot execute fitness evaluations in batch mode for a problem of type \x27"
        ++ p.get_name
        ++ "\x27: the problem does not implement the batch_fitness() member function, "
        ++ "and its thread safety level is not sufficient to run a thread-based "
        ++ "batch fitness evaluation implementation"),
      p)

/-- Modelled from the spec: `detail::bfe_check_input_dvs`
(`detail/bfe_impl.hpp` is not in the sources in scope; spec section 4.C:
the input check requires `p.nx > 0` and `len(dvs) % p.nx == 0`, failing
with a domain-specific error and no side effects.  The integrality check
on integer decision components is trivially satisfied in this model,
whose scalars are integers). -/
def bfe_check_input_dvs (p : problem) (dvs : List Int) : Except String Unit :=
  if p.get_nx = 0 then
    .error "the problem has a zero decision vector dimension"
  else if dvs.length % p.get_nx ≠ 0 then
    .error "the length of the batch of decision vectors is not a multiple of the dimension of the problem"
  else
    .ok ()

/-- Modelled from the spec: `detail::bfe_check_output_fvs`
(`detail/bfe_impl.hpp` is not in the sources in scope; spec section 4.C:
the returned length must equal `(len(dvs)/nx) * nf`, else error and the
returned buffer is discarded). -/
def bfe_check_output_fvs (p : problem) (dvs fvs : List Int) : Except String Unit :=
  if fvs.length = dvs.length / p.get_nx * p.get_nf then
    .ok ()
  else
    .error "the number of produced fitness vectors does not match the number of input decision vectors"

/-- The C++ `bfe::operator()(p, dvs)` (`bfe.hpp`): validate the input
batch, invoke the type-erased inner driver, validate the shape of the
returned fitness buffer, and only then return it.  The inner driver is
the function held behind `m_ptr`; it may itself fail, and any failure
propagates unchanged. -/
def bfe_call (driver : problem → List Int → Except String (List Int))
    (p : problem) (dvs : List Int) : Except String (List Int) :=
  match bfe_check_input_dvs p dvs with
  | .error e => .error e
  | .ok _ =>
    match driver p dvs with
    | .error e => .error e
    | .ok retval =>
      match bfe_check_output_fvs p dvs retval with
      | .error e => .error e
      | .ok _ => .ok retval

/-- The state behind a `bfe`'s `m_ptr`: the type-erased inner driver
(`detail::bfe_inner`), carrying the call operation and the values its
virtual `get_name` / `get_thread_safety` currently report. -/
structure bfe_inner : Type where
  call : problem → List Int → Except String (List Int)
  name : String
  ts : thread_safety

/-- The `pagmo::bfe` container (`bfe.hpp`): the owned inner driver plus
the `m_name` and `m_thread_safety` attributes cached at construction
time. -/
structure bfe : Type where
  m_ptr : bfe_inner
  m_name : String
  m_thread_safety : thread_safety

/-- The generic `bfe` constructor from a user-defined driver
(`bfe.hpp`): stores the driver and caches `ptr()->get_name()` and
`ptr()->get_thread_safety()`. -/
def bfe.ofDriver (inner : bfe_inner) : bfe :=
  { m_ptr := inner, m_name := inner.name, m_thread_safety := inner.ts }

/-- The `bfe` copy constructor (`bfe.hpp` line 419): clones the inner
driver and copies the cached `m_name` and `m_thread_safety` fields
directly, without re-querying the clone.  `clone()` deep-copies the
driver, so in this pure model the clone equals the source driver. -/
def bfe.copy (b : bfe) : bfe :=
  { m_ptr := b.m_ptr, m_name := b.m_name, m_thread_safety := b.m_thread_safety }

/-- The accessor `bfe::get_name` returns the cached `m_name`. -/
def bfe.get_name (b : bfe) : String := b.m_name

/-- The accessor `bfe::get_thread_safety` returns the cached
`m_thread_safety`. -/
def bfe.get_thread_safety (b : bfe) : thread_safety := b.m_thread_safety

/-- The external `pagmo::population` contract (spec section 3): it
carries a problem by value together with its individuals (decision
vector and fitness pairs); only the problem contributes to safety-tier
checks. -/
structure population : Type where
  prob : problem
  individuals : List (List Int × List Int)

/-- The accessor `population::get_problem`. -/
def population.get_problem (pop : population) : problem := pop.prob

/-- The external `pagmo::algorithm` contract (spec section 3): a name, a
declared thread-safety tier and the `evolve` operation on populations. -/
structure algorithm : Type where
  name : String
  ts : thread_safety
  evolveFun : population → population

def algorithm.get_name (a : algorithm) : String := a.name

def algorithm.get_thread_safety (a : algorithm) : thread_safety := a.ts

/-- The message of the invalid-argument error thrown by
`thread_island::check_thread_safety` (`island.hpp`): it names the
offending object and its (insufficient) tier. -/
def thread_island.ts_error_message (nm : String) (ts : thread_safety) : String :=
  "thread islands require objects which provide at least the basic thread safety level, but the object \x27"
    ++ nm ++ "\x27 provides only the \x27"
    ++ (if ts = thread_safety.copyonly then "copyonly" else "none")
    ++ "\x27 thread safety guarantee"

/-- The C++ `thread_island::check_thread_safety(x)` (`island.hpp`):
throws an invalid-argument error when the object's tier is below
`basic`.  The object is represented by its `get_name()` and
`get_thread_safety()` results. -/
def thread_island.check_thread_safety (nm : String) (ts : thread_safety) :
    Except String Unit :=
  if ts.toNat < thread_safety.basic.toNat then
    .error (thread_island.ts_error_message nm ts)
  else
    .ok ()

/-- Observable events of `thread_island::run_evolve`, in the order the
C++ statements perform them. -/
inductive ri_event : Type where
  | copy_algo : ri_event
  | release_algo_lock : ri_event
  | copy_pop : ri_event
  | release_pop_lock : ri_event
  | evolve : ri_event
  | acquire_pop_lock : ri_event
  | assign_pop : ri_event
deriving DecidableEq, Repr

/-- The state `thread_island::run_evolve` operates on: the island's
algorithm and population together with the two locked locks handed in by
the worker task. -/
structure ri_state : Type where
  algo : algorithm
  algo_locked : Bool
  pop : population
  pop_locked : Bool

/-- The C++ `thread_island::run_evolve(algo, algo_lock, pop, pop_lock)`
(`island.hpp`): check the thread safety of the algorithm and then of the
population's problem (throwing with the original state untouched on
failure); then copy the algorithm and unlock `algo_lock`, copy the
population and unlock `pop_lock`, run `algo_copy.evolve(pop_copy)`,
re-lock `pop_lock` and move-assign the evolved population into `pop`.
The returned trace records the performed events in order. -/
def thread_island.run_evolve (st : ri_state) :
    Except String Unit × ri_state × List ri_event :=
  match thread_island.check_thread_safety st.algo.get_name st.algo.get_thread_safety with
  | .error e => (.error e, st, [])
  | .ok _ =>
  match thread_island.check_thread_safety st.pop.get_problem.get_name
      st.pop.get_problem.get_thread_safety with
  | .error e => (.error e, st, [])
  | .ok _ =>
    let algo_copy := st.algo
    let st1 := { st with algo_locked := false }
    let pop_copy := st1.pop
    let st2 := { st1 with pop_locked := false }
    let new_pop := algo_copy.evolveFun pop_copy
    let st3 := { st2 with pop_locked := true }
    let st4 := { st3 with pop := new_pop }
    (.ok (), st4,
      [.copy_algo, .release_algo_lock, .copy_pop, .release_pop_lock,
       .evolve, .acquire_pop_lock, .assign_pop])

/-- The stored outcome of a completed evolution task, as surfaced by
`std::future<void>::get()`: either normal completion or the captured
error. -/
abbrev future := Except String Unit

/-- The drain loop in the catch handler of `island::wait`
(`island.hpp`): after the first failure, `get()` is still called on
every remaining future, ignoring any error; the result counts the
`get()` calls made. -/
def island.drain_ignore : List future → Nat
  | [] => 0
  | _ :: rest => island.drain_ignore rest + 1

/-- The main loop of `island::wait` (`island.hpp`): call `get()` on the
pending futures in submission order; on the first failure, drain all
remaining futures (ignoring their errors) and rethrow the first error.
Returns the outcome and the total number of `get()` calls made. -/
def island.wait_loop : List future → Except String Unit × Nat
  | [] => (.ok (), 0)
  | f :: rest =>
    match f with
    | .ok _ =>
      let r := island.wait_loop rest
      (r.1, r.2 + 1)
    | .error e => (.error e, island.drain_ignore rest + 1)

/-- The C++ `island::wait()` (`island.hpp`) acting on the pending-futures list
(held under `futures_mutex`): run the loop, clear the list in every case
(both the success path and the catch handler clear it before
returning / rethrowing), and report the outcome together with the number
of `get()` calls performed. -/
def island.wait (futs : List future) :
    Except String Unit × List future × Nat :=
  let r := island.wait_loop futs
  (r.1, [], r.2)

/-- A slot of the island's `futures` vector: `Option.none` is the
default-constructed placeholder `std::future<void>` emplaced by
`island::evolve` before submission, `Option.some f` a real completion
handle. -/
abbrev future_slot := Option future

/-- The C++ `island::evolve()` (`island.hpp`) acting on the futures list under
`futures_mutex`: first `emplace_back` an empty placeholder future, then
submit the evolution closure via `queue.enqueue`, whose result `enq`
either is a valid future (move-assigned into the placeholder slot) or an
error, in which case the placeholder is popped back off before the
exception propagates. -/
def island.evolve (futures : List future_slot) (enq : Except String future) :
    Except String Unit × List future_slot :=
  let fs := futures ++ [Option.none]
  match enq with
  | .ok fut => (.ok (), fs.dropLast ++ [Option.some fut])
  | .error e => (.error e, fs.dropLast)

/-- A concrete conforming problem used by the concrete instances below:
one-dimensional decision vectors, one-dimensional fitness `x * x`, tier
`basic`, no `batch_fitness` member. -/
def wprob : problem :=
  { nx := 1, nf := 1, name := "wp", ts := thread_safety.basic,
    hasBatchFitness := false,
    fitnessFun := fun dv => [dv.headI * dv.headI],
    batchFitnessFun := fun dvs => dvs,
    fevals := 0 }

/-- A concrete problem exposing a `batch_fitness` member that doubles
every component. -/
def wprob_member : problem :=
  { wprob with
    name := "wm"
    hasBatchFitness := true
    batchFitnessFun := fun dvs => dvs.map (fun x => 2 * x) }

/-- A concrete problem with tier `none` (below `basic`). -/
def lowtier_prob : problem :=
  { wprob with name := "p0", ts := thread_safety.tsnone }

/-- A concrete tier-`none` problem whose fitness dimension `2^63` makes
the output size of even a tiny batch overflow a 64-bit index type. -/
def overflow_prob : problem :=
  { lowtier_prob with nf := 9223372036854775808 }

/-- A concrete problem whose fitness dimension is `UINT_MAX / 2`. -/
def halfmax_prob : problem :=
  { wprob with nf := 2147483647 }

/-- A concrete `basic`-tier algorithm whose evolution empties the
population's individuals. -/
def walgo : algorithm :=
  { name := "wa", ts := thread_safety.basic,
    evolveFun := fun pop => { pop with individuals := [] } }

/-- A concrete population over `wprob`. -/
def wpop : population :=
  { prob := wprob, individuals := [([1], [1])] }

/-- A concrete `run_evolve` input state with both locks held and both
tiers at `basic`. -/
def wstate : ri_state :=
  { algo := walgo, algo_locked := true, pop := wpop, pop_locked := true }

/-- As `wstate` but with a tier-`none` algorithm. -/
def wstate_bad : ri_state :=
  { wstate with algo := { walgo with ts := thread_safety.tsnone } }

lemma check_thread_safety_ok (nm : String) (ts : thread_safety)
    (h : tsGe ts thread_safety.basic = true) :
    thread_island.check_thread_safety nm ts = .ok () := by
  simp only [tsGe, decide_eq_true_eq] at h
  unfold thread_island.check_thread_safety
  rw [if_neg (Nat.not_lt.mpr h)]

lemma check_thread_safety_fail (nm : String) (ts : thread_safety)
    (h : tsGe ts thread_safety.basic = false) :
    thread_island.check_thread_safety nm ts
      = .error (thread_island.ts_error_message nm ts) := by
  simp only [tsGe, decide_eq_false_iff_not, Nat.not_le] at h
  unfold thread_island.check_thread_safety
  rw [if_pos h]

lemma drain_ignore_eq_length (l : List future) :
    island.drain_ignore l = l.length := by
  induction l with
  | nil => rfl
  | cons f rest ih => simp [island.drain_ignore, ih]

lemma wait_loop_gets (l : List future) :
    (island.wait_loop l).2 = l.length := by
  induction l with
  | nil => rfl
  | cons f rest ih =>
    cases f with
    | ok u => simp [island.wait_loop, ih]
    | error e => simp [island.wait_loop, drain_ignore_eq_length]

lemma wait_loop_all_ok (l : List future) (h : ∀ f ∈ l, f = .ok ()) :
    (island.wait_loop l).1 = .ok () := by
  induction l with
  | nil => rfl
  | cons f rest ih =>
    have hf := h f (List.mem_cons_self f rest)
    subst hf
    simpa [island.wait_loop] using ih (fun g hg => h g (List.mem_cons_of_mem _ hg))

lemma wait_loop_first_error (pre : List future) (e : String) (rest : List future)
    (h : ∀ f ∈ pre, f = .ok ()) :
    (island.wait_loop (pre ++ .error e :: rest)).1 = .error e := by
  induction pre with
  | nil => simp [island.wait_loop]
  | cons f pre ih =>
    have hf := h f (List.mem_cons_self f pre)
    subst hf
    simpa [island.wait_loop] using ih (fun g hg => h g (List.mem_cons_of_mem _ hg))

lemma cannot_msg_ne_overflow_msg (nm : String) :
    ("Cannot use a thread_bfe on the problem \x27" ++ nm
        ++ "\x27, which does not provide the required level of thread safety")
      ≠ "Overflow detected in the computation of the size of the output of a thread_bfe" := by
  intro h
  have hl := congrArg String.length h
  rw [String.length_append, String.length_append] at hl
  have h1 : ("Cannot use a thread_bfe on the problem \x27" : String).length = 40 := rfl
  have h2 : ("\x27, which does not provide the required level of thread safety" : String).length = 61 := rfl
  have h3 : ("Overflow detected in the computation of the size of the output of a thread_bfe" : String).length = 78 := rfl
  omega

/-- C1: for every conforming problem `p` (positive `nx`) and every batch
`dvs` whose length is a multiple of `p.nx`, a successful
`bfe::operator()` call returns a buffer of length
`(len(dvs)/p.nx) * p.nf`; and whenever the inner driver returns a buffer
of any other length, the call fails with the output-check error, the
driver's buffer being discarded. -/
theorem bfe_operator_output_shape
    (driver : problem → List Int → Except String (List Int))
    (p : problem) (dvs : List Int)
    (hnx : 0 < p.get_nx) (hdiv : dvs.length % p.get_nx = 0) :
    (∀ out, bfe_call driver p dvs = .ok out →
        out.length = dvs.length / p.get_nx * p.get_nf)
    ∧ (∀ r, driver p dvs = .ok r →
        r.length ≠ dvs.length / p.get_nx * p.get_nf →
        bfe_call driver p dvs
          = .error "the number of produced fitness vectors does not match the number of input decision vectors") := by
  have hin : bfe_check_input_dvs p dvs = .ok () := by
    unfold bfe_check_input_dvs
    rw [if_neg (Nat.pos_iff_ne_zero.mp hnx), if_neg (not_not_intro hdiv)]
  constructor
  · intro out hout
    unfold bfe_call at hout
    rw [hin] at hout
    cases hd : driver p dvs with
    | error e => rw [hd] at hout; simp at hout
    | ok r =>
      rw [hd] at hout
      by_cases hlen : r.length = dvs.length / p.get_nx * p.get_nf
      · simp only [bfe_check_output_fvs, if_pos hlen, Except.ok.injEq] at hout
        rw [← hout]
        exact hlen
      · simp only [bfe_check_output_fvs, if_neg hlen] at hout
        simp at hout
  · intro r hd hlen
    unfold bfe_call
    rw [hin, hd]
    simp only [bfe_check_output_fvs, if_neg hlen]

/-- Witness for C1: a driver returning a wrongly sized buffer on a
conforming input makes the container discard it and fail with the
output-check error. -/
theorem bfe_operator_output_shape_witness :
    bfe_call (fun _ _ => .ok [1, 2]) wprob [5]
      = .error "the number of produced fitness vectors does not match the number of input decision vectors" :=
  (bfe_operator_output_shape (fun _ _ => .ok [1, 2]) wprob [5] (by decide)
    (by decide)).2 [1, 2] rfl (by decide)

/-- C2: `default_bfe`'s call dispatches exactly as the spec says: a
problem with a `batch_fitness` member goes to `member_bfe`; otherwise a
problem at least `basic`-thread-safe goes to `thread_bfe`; otherwise an
invalid-argument error naming the problem and the missing capabilities
is raised. -/
theorem default_bfe_dispatch (sizeMax : Nat) (p : problem) (dvs : List Int) :
    (p.has_batch_fitness = true →
      default_bfe_cpp_impl sizeMax p dvs = (.ok (member_bfe_call p dvs), p))
    ∧ (p.has_batch_fitness = false →
      tsGe p.get_thread_safety thread_safety.basic = true →
      default_bfe_cpp_impl sizeMax p dvs
        = ((thread_bfe_call sizeMax p dvs).outcome,
           (thread_bfe_call sizeMax p dvs).prob))
    ∧ (p.has_batch_fitness = false →
      tsGe p.get_thread_safety thread_safety.basic = false →
      default_bfe_cpp_impl sizeMax p dvs
        = (.error
            ("Cannot execute fitness evaluations in batch mode for a problem of type \x27"
              ++ p.get_name
              ++ "\x27: the problem does not implement the batch_fitness() member function, "
              ++ "and its thread safety level is not sufficient to run a thread-based "
              ++ "batch fitness evaluation implementation"), p)) := by
  refine ⟨fun h => ?_, fun h1 h2 => ?_, fun h1 h2 => ?_⟩
  · simp [default_bfe_cpp_impl, h]
  · simp [default_bfe_cpp_impl, h1, h2]
  · simp [default_bfe_cpp_impl, h1, h2]

/-- Witness for C2 (spec scenario 2): a problem whose `batch_fitness`
doubles each component, with `dvs = [1,2,3]`, goes through `member_bfe`
and yields `[2,4,6]` with the problem state (hence its `fevals`)
untouched. -/
theorem default_bfe_dispatch_witness :
    default_bfe_cpp_impl 100 wprob_member [1, 2, 3] = (.ok [2, 4, 6], wprob_member) := by
  have h := (default_bfe_dispatch 100 wprob_member [1, 2, 3]).1 rfl
  rw [h]
  rfl

/-- C3: with both tiers at least `basic`, `thread_island::run_evolve`
performs exactly, in order: copy the algorithm, release the algorithm
lock, copy the population, release the population lock, evolve the
copies, re-acquire the population lock, move-assign the evolved
population; the final state holds the evolved population with the
algorithm lock released and the population lock held.  If the
algorithm's tier is below `basic`, or the algorithm passes but the
population's problem's tier is below `basic`, it raises the
invalid-argument error naming that weaker party. -/
theorem thread_island_run_evolve_spec (st : ri_state) :
    (tsGe st.algo.get_thread_safety thread_safety.basic = true →
      tsGe st.pop.get_problem.get_thread_safety thread_safety.basic = true →
      thread_island.run_evolve st
        = (.ok (),
           { algo := st.algo, algo_locked := false,
             pop := st.algo.evolveFun st.pop, pop_locked := true },
           [.copy_algo, .release_algo_lock, .copy_pop, .release_pop_lock,
            .evolve, .acquire_pop_lock, .assign_pop]))
    ∧ (tsGe st.algo.get_thread_safety thread_safety.basic = false →
      thread_island.run_evolve st
        = (.error (thread_island.ts_error_message st.algo.get_name
            st.algo.get_thread_safety), st, []))
    ∧ (tsGe st.algo.get_thread_safety thread_safety.basic = true →
      tsGe st.pop.get_problem.get_thread_safety thread_safety.basic = false →
      thread_island.run_evolve st
        = (.error (thread_island.ts_error_message st.pop.get_problem.get_name
            st.pop.get_problem.get_thread_safety), st, [])) := by
  refine ⟨fun hA hP => ?_, fun hA => ?_, fun hA hP => ?_⟩
  · unfold thread_island.run_evolve
    rw [check_thread_safety_ok _ _ hA, check_thread_safety_ok _ _ hP]
  · unfold thread_island.run_evolve
    rw [check_thread_safety_fail _ _ hA]
  · unfold thread_island.run_evolve
    rw [check_thread_safety_ok _ _ hA, check_thread_safety_fail _ _ hP]

/-- Witness for C3 at a concrete `basic`/`basic` state. -/
theorem thread_island_run_evolve_spec_witness :
    thread_island.run_evolve wstate
      = (.ok (),
         { algo := wstate.algo, algo_locked := false,
           pop := wstate.algo.evolveFun wstate.pop, pop_locked := true },
         [.copy_algo, .release_algo_lock, .copy_pop, .release_pop_lock,
          .evolve, .acquire_pop_lock, .assign_pop]) :=
  (thread_island_run_evolve_spec wstate).1 rfl rfl

/-- C10: when `thread_island::run_evolve` fails the thread-safety check,
it fails before performing any copy or lock operation: the state is
returned unchanged, the event trace is empty, and (with both locks held
on entry) both locks are still held. -/
theorem thread_island_error_leaves_state (st : ri_state)
    (hbad : tsGe st.algo.get_thread_safety thread_safety.basic = false
      ∨ tsGe st.pop.get_problem.get_thread_safety thread_safety.basic = false)
    (hA : st.algo_locked = true) (hP : st.pop_locked = true) :
    (thread_island.run_evolve st).2.1 = st
    ∧ (thread_island.run_evolve st).2.2 = []
    ∧ (thread_island.run_evolve st).2.1.algo_locked = true
    ∧ (thread_island.run_evolve st).2.1.pop_locked = true
    ∧ (thread_island.run_evolve st).1 ≠ .ok () := by
  have key : ∃ msg, thread_island.run_evolve st = (.error msg, st, []) := by
    rcases hbad with h | h
    · refine ⟨thread_island.ts_error_message st.algo.get_name
        st.algo.get_thread_safety, ?_⟩
      unfold thread_island.run_evolve
      rw [check_thread_safety_fail _ _ h]
    · by_cases hA2 : tsGe st.algo.get_thread_safety thread_safety.basic = true
      · refine ⟨thread_island.ts_error_message st.pop.get_problem.get_name
          st.pop.get_problem.get_thread_safety, ?_⟩
        unfold thread_island.run_evolve
        rw [check_thread_safety_ok _ _ hA2, check_thread_safety_fail _ _ h]
      · have hA3 : tsGe st.algo.get_thread_safety thread_safety.basic = false := by
          simpa using hA2
        refine ⟨thread_island.ts_error_message st.algo.get_name
          st.algo.get_thread_safety, ?_⟩
        unfold thread_island.run_evolve
        rw [check_thread_safety_fail _ _ hA3]
  obtain ⟨msg, hmsg⟩ := key
  rw [hmsg]
  exact ⟨rfl, rfl, hA, hP, by simp⟩

/-- Witness for C10 at a concrete state with a tier-`none` algorithm and
both locks held. -/
theorem thread_island_error_leaves_state_witness :
    (thread_island.run_evolve wstate_bad).2.1 = wstate_bad
    ∧ (thread_island.run_evolve wstate_bad).2.2 = []
    ∧ (thread_island.run_evolve wstate_bad).2.1.algo_locked = true
    ∧ (thread_island.run_evolve wstate_bad).2.1.pop_locked = true
    ∧ (thread_island.run_evolve wstate_bad).1 ≠ .ok () :=
  thread_island_error_leaves_state wstate_bad (Or.inl rfl) rfl rfl

/-- C4: `island::wait` calls `get()` on every pending handle in
submission order (even after a failure, the remaining ones are drained),
always clears the pending list, reports success when all handles
succeeded and otherwise rethrows the first captured error; hence a
second `wait` with no intervening `evolve` acts on an empty list, is a
no-op and raises no error. -/
theorem island_wait_spec (futs : List future) :
    ((island.wait futs).2.1 = [] ∧ (island.wait futs).2.2 = futs.length)
    ∧ ((∀ f ∈ futs, f = .ok ()) → (island.wait futs).1 = .ok ())
    ∧ (∀ pre e rest, futs = pre ++ .error e :: rest →
        (∀ f ∈ pre, f = .ok ()) → (island.wait futs).1 = .error e)
    ∧ island.wait ((island.wait futs).2.1) = (.ok (), [], 0) := by
  refine ⟨⟨rfl, wait_loop_gets futs⟩, fun h => wait_loop_all_ok futs h,
    fun pre e rest hsplit hpre => ?_, rfl⟩
  rw [hsplit]
  exact wait_loop_first_error pre e rest hpre

/-- Witness for C4 at a concrete list whose second handle failed. -/
theorem island_wait_spec_witness :
    (island.wait [Except.ok (), Except.error "boom", Except.ok ()]).1
      = .error "boom" :=
  (island_wait_spec [Except.ok (), Except.error "boom", Except.ok ()]).2.2.1
    [Except.ok ()] "boom" [Except.ok ()] rfl (by simp)

/-- C5: `island::evolve` appends a placeholder to the futures list and
submits the task; if submission fails, the placeholder is popped before
the error propagates, leaving the futures list exactly as it was; on
success the list has gained exactly the returned handle. -/
theorem island_evolve_rollback (futures : List future_slot)
    (enq : Except String future) :
    (∀ e, enq = .error e →
      island.evolve futures enq = (.error e, futures))
    ∧ (∀ f, enq = .ok f →
      island.evolve futures enq = (.ok (), futures ++ [Option.some f])) := by
  constructor
  · intro e he
    subst he
    simp [island.evolve]
  · intro f hf
    subst hf
    simp [island.evolve]

/-- Witness for C5: a failing submission on an island with no pending
futures leaves the futures list empty. -/
theorem island_evolve_rollback_witness :
    island.evolve [] (Except.error "queue down") = (.error "queue down", []) :=
  (island_evolve_rollback [] (Except.error "queue down")).1 "queue down" rfl

/-- C6: on a problem of tier exactly `basic` and a batch of
`k = len(dvs)/nx` decision vectors accepted by the guards, `thread_bfe`
performs no fitness evaluation on the original problem (all `k` run on
copies) and calls `increment_fevals` exactly once, with argument `k`, on
the original problem, whose `fevals` counter therefore grows by exactly
`k`. -/
theorem thread_bfe_basic_tier_copies (sizeMax : Nat) (p : problem) (dvs : List Int)
    (hts : p.get_thread_safety = thread_safety.basic)
    (hnx : 0 < p.get_nx) (hdiv : dvs.length % p.get_nx = 0)
    (hnf : 0 < p.get_nf)
    (hov : dvs.length / p.get_nx * p.get_nf ≤ sizeMax) :
    (thread_bfe_call sizeMax p dvs).sharedFitnessCalls = 0
    ∧ (thread_bfe_call sizeMax p dvs).copyFitnessCalls = dvs.length / p.get_nx
    ∧ (thread_bfe_call sizeMax p dvs).incrementFevalsArgs
        = [dvs.length / p.get_nx]
    ∧ (thread_bfe_call sizeMax p dvs).prob.fevals
        = p.fevals + dvs.length / p.get_nx := by
  have hguard : ¬ (sizeMax / p.get_nf < dvs.length / p.get_nx) := by
    rw [Nat.div_lt_iff_lt_mul hnf]
    omega
  have hc : ¬ (tsGe p.get_thread_safety thread_safety.tsconstant = true) := by
    rw [hts]
    simp [tsGe, thread_safety.toNat]
  simp only [thread_bfe_call]
  rw [if_neg hguard, if_neg hc, if_pos hts]
  exact ⟨rfl, rfl, rfl, rfl⟩

/-- Witness for C6 (spec scenario 3): tier-`basic` problem, `nx = 1`,
`dvs = [1,2,3]`: three fitness evaluations on copies, one
`increment_fevals(3)`, `fevals` grows by three. -/
theorem thread_bfe_basic_tier_copies_witness :
    (thread_bfe_call 100 wprob [1, 2, 3]).sharedFitnessCalls = 0
    ∧ (thread_bfe_call 100 wprob [1, 2, 3]).copyFitnessCalls = 3
    ∧ (thread_bfe_call 100 wprob [1, 2, 3]).incrementFevalsArgs = [3]
    ∧ (thread_bfe_call 100 wprob [1, 2, 3]).prob.fevals = wprob.fevals + 3 :=
  thread_bfe_basic_tier_copies 100 wprob [1, 2, 3] rfl (by decide) (by decide)
    (by decide) (by decide)

/-- C7 counterexample: a tier-`none` problem together with a batch whose
output size `k * nf` overflows the index type makes `thread_bfe` raise
the overflow error, not the invalid-argument thread-safety error the
claim promises for every batch (the overflow guard runs before the
thread-safety dispatch). -/
theorem thread_bfe_low_tier_counterexample :
    tsGe overflow_prob.get_thread_safety thread_safety.basic = false
    ∧ (thread_bfe_call 18446744073709551615 overflow_prob
        (List.replicate 8 0)).outcome
        = .error "Overflow detected in the computation of the size of the output of a thread_bfe"
    ∧ (thread_bfe_call 18446744073709551615 overflow_prob
        (List.replicate 8 0)).outcome
        ≠ .error ("Cannot use a thread_bfe on the problem \x27"
            ++ overflow_prob.get_name
            ++ "\x27, which does not provide the required level of thread safety") := by
  refine ⟨rfl, rfl, fun h => ?_⟩
  have h0 : ("Overflow detected in the computation of the size of the output of a thread_bfe" : String)
      = "Cannot use a thread_bfe on the problem \x27" ++ overflow_prob.get_name
        ++ "\x27, which does not provide the required level of thread safety" :=
    Except.error.inj h
  exact cannot_msg_ne_overflow_msg overflow_prob.get_name h0.symm

/-- C7 amended: for a problem whose tier is below `basic` and a batch
whose output size does not trip the overflow guard, `thread_bfe` raises
the invalid-argument error naming the problem and its insufficient
thread safety, with no fitness evaluation and the problem untouched. -/
theorem thread_bfe_low_tier_error (sizeMax : Nat) (p : problem) (dvs : List Int)
    (hts : tsGe p.get_thread_safety thread_safety.basic = false)
    (hnf : 0 < p.get_nf)
    (hov : dvs.length / p.get_nx * p.get_nf ≤ sizeMax) :
    (thread_bfe_call sizeMax p dvs).outcome
        = .error ("Cannot use a thread_bfe on the problem \x27" ++ p.get_name
            ++ "\x27, which does not provide the required level of thread safety")
    ∧ (thread_bfe_call sizeMax p dvs).sharedFitnessCalls = 0
    ∧ (thread_bfe_call sizeMax p dvs).copyFitnessCalls = 0
    ∧ (thread_bfe_call sizeMax p dvs).incrementFevalsArgs = []
    ∧ (thread_bfe_call sizeMax p dvs).prob = p := by
  have hlt : p.get_thread_safety.toNat < 2 := by
    have h := hts
    simp only [tsGe, decide_eq_false_iff_not, Nat.not_le] at h
    exact h
  have hguard : ¬ (sizeMax / p.get_nf < dvs.length / p.get_nx) := by
    rw [Nat.div_lt_iff_lt_mul hnf]
    omega
  have hc : ¬ (tsGe p.get_thread_safety thread_safety.tsconstant = true) := by
    simp only [tsGe, decide_eq_true_eq]
    have h3 : thread_safety.tsconstant.toNat = 3 := rfl
    rw [h3]
    omega
  have hb : ¬ (p.get_thread_safety = thread_safety.basic) := by
    intro h
    rw [h] at hlt
    exact absurd hlt (by decide)
  simp only [thread_bfe_call]
  rw [if_neg hguard, if_neg hc, if_neg hb]
  exact ⟨rfl, rfl, rfl, rfl, rfl⟩

/-- Witness for the amended C7 (spec scenario 1): a tier-`none` problem
with `nx = nf = 1` and `dvs = [0, 0]`. -/
theorem thread_bfe_low_tier_error_witness :
    (thread_bfe_call 100 lowtier_prob [0, 0]).outcome
        = .error ("Cannot use a thread_bfe on the problem \x27"
            ++ lowtier_prob.get_name
            ++ "\x27, which does not provide the required level of thread safety")
    ∧ (thread_bfe_call 100 lowtier_prob [0, 0]).sharedFitnessCalls = 0
    ∧ (thread_bfe_call 100 lowtier_prob [0, 0]).copyFitnessCalls = 0
    ∧ (thread_bfe_call 100 lowtier_prob [0, 0]).incrementFevalsArgs = []
    ∧ (thread_bfe_call 100 lowtier_prob [0, 0]).prob = lowtier_prob :=
  thread_bfe_low_tier_error 100 lowtier_prob [0, 0] rfl (by decide) (by decide)

/-- C8: for a problem with positive `nf`, `thread_bfe` raises the
overflow error exactly when `k * nf` (with `k = len(dvs)/nx`) would
exceed the maximum of the output index type. -/
theorem thread_bfe_overflow_guard (sizeMax : Nat) (p : problem) (dvs : List Int)
    (hnf : 0 < p.get_nf) :
    ((thread_bfe_call sizeMax p dvs).outcome
        = .error "Overflow detected in the computation of the size of the output of a thread_bfe")
      ↔ sizeMax < dvs.length / p.get_nx * p.get_nf := by
  constructor
  · intro h
    by_contra hnot
    have hguard : ¬ (sizeMax / p.get_nf < dvs.length / p.get_nx) := by
      rw [Nat.div_lt_iff_lt_mul hnf]
      omega
    simp only [thread_bfe_call] at h
    rw [if_neg hguard] at h
    by_cases hc : tsGe p.get_thread_safety thread_safety.tsconstant = true
    · rw [if_pos hc] at h
      simp at h
    · rw [if_neg hc] at h
      by_cases hb : p.get_thread_safety = thread_safety.basic
      · rw [if_pos hb] at h
        simp at h
      · rw [if_neg hb] at h
        exact cannot_msg_ne_overflow_msg p.get_name (Except.error.inj h)
  · intro h
    have hguard : sizeMax / p.get_nf < dvs.length / p.get_nx :=
      (Nat.div_lt_iff_lt_mul hnf).mpr h
    simp only [thread_bfe_call]
    rw [if_pos hguard]

/-- Witness for C8 (spec scenario 4 on an index type whose maximum is
`UINT_MAX`): `nx = 1`, `nf = UINT_MAX / 2 = 2147483647`, `k = 3`. -/
theorem thread_bfe_overflow_guard_witness :
    (thread_bfe_call 4294967295 halfmax_prob [0, 0, 0]).outcome
      = .error "Overflow detected in the computation of the size of the output of a thread_bfe" :=
  (thread_bfe_overflow_guard 4294967295 halfmax_prob [0, 0, 0]
    (by decide)).mpr (by decide)

/-- C9: the `bfe` copy constructor copies the cached `m_name` and
`m_thread_safety` fields directly instead of re-querying the cloned
driver, so for every bfe (including one whose driver would currently
report different values) the copy's `get_name` and `get_thread_safety`
agree with the source's cached attributes. -/
theorem bfe_copy_preserves_cached (b : bfe) :
    (bfe.copy b).get_name = b.get_name
    ∧ (bfe.copy b).get_thread_safety = b.get_thread_safety
    ∧ (bfe.copy b).get_name = b.m_name
    ∧ (bfe.copy b).get_thread_safety = b.m_thread_safety :=
  ⟨rfl, rfl, rfl, rfl⟩

end Pagmo
